import Mathlib

/-!
# check_net: resolver fallback, bounded port probe and ping orchestration

A shallow embedding of `check.go`.  Network primitives (`resolver.LookupHost`,
`nmap.NewScanner`, `scanner.Run`, `ping.NewPinger`, `pinger.Run`) are oracles
passed as arguments; every call of an oracle and every line written to standard
output is recorded in an explicit trace, oldest entry first.  A Go runtime
panic is modelled by `none` (or by a recorded panic value where the trace up to
the panic matters).
-/

namespace CheckNet

/-! ## Go primitives -/

/-- Go slice expression `s[i:]`: `none` is the runtime panic for an index out of range. -/
def sliceFrom {α : Type} (s : List α) (i : Int) : Option (List α) :=
  if 0 ≤ i ∧ i ≤ (s.length : Int) then some (s.drop i.toNat) else none

/-- Two's-complement wrap of an integer to 64 bits (`int64`, `time.Duration`). -/
def wrapInt64 (x : Int) : Int := (x + 2 ^ 63) % 2 ^ 64 - 2 ^ 63

/-- The constant `time.Second`, in nanoseconds. -/
def Second : Int := 1000000000

/-- The conversion `time.Duration(sec) * time.Second`. -/
def secondsToDuration (sec : Int) : Int := wrapInt64 (wrapInt64 sec * Second)

/-! ## Configuration records -/

/-- The record `nmapCheck`. -/
structure nmapCheck where
  Url : String
  Port : String
  Udp : Bool
  TimeoutSec : Int
deriving DecidableEq, Repr

/-- The record `pingCheck`. -/
structure pingCheck where
  Url : String
  Count : Int
deriving DecidableEq, Repr

/-- The record `dnsCheck`. -/
structure dnsCheck where
  DnsServers : List String
  DnsTimeoutSec : Int
  UrlsToCheck : List String
deriving DecidableEq, Repr

/-- The record `Config`. -/
structure Config where
  NsLookupCheck : dnsCheck
  NmapChecks : List nmapCheck
  PingChecks : List pingCheck
deriving DecidableEq, Repr

/-! ## Resolver fallback -/

/-- The record `result`: a hostname with the addresses one lookup returned. -/
structure result where
  url : String
  ips : List String
deriving DecidableEq, Repr

/-- What one call of `resolver.LookupHost` returns: `(addrs, err)`, `err = none` for `nil`. -/
abbrev LookupReply := List String × Option String

/-- Oracle for `resolver.LookupHost(ctx, url)` on the resolver that dials `dns`
with dial timeout `dnsTimeout`: arguments are `dns`, `dnsTimeout`, `url`. -/
abbrev LookupOracle := String → Int → String → LookupReply

/-- One recorded call of `resolver.LookupHost`: the resolver endpoint and the hostname. -/
abbrev LookupCall := String × String

/-- A line written to standard output by `checkResolving`. -/
inductive ResolveLine where
  | successfulResolved (dns : String) (url : String) (ips : List String)
  | resolvingFailed
deriving DecidableEq, Repr

/-- Observable state of a `checkResolving` run. -/
structure ResolveTrace where
  lookups : List LookupCall
  stdout : List ResolveLine
deriving DecidableEq, Repr

/-- The `for _, url := range urls` loop of `LookupHosts`, with the accumulator `ans`
and the lookup log threaded through. -/
def LookupHostsLoop (LookupHost : LookupOracle) (dns : String) (exitAfterSuccess : Bool)
    (dnsTimeout : Int) :
    List String → List result → List LookupCall → Option (List result × List LookupCall)
  | [], ans, log => some (ans, log)
  | url :: urls, ans, log =>
    let addrs := (LookupHost dns dnsTimeout url).1
    let ans1 := ans ++ [{ url := url, ips := addrs }]
    let log1 := log ++ [(dns, url)]
    if exitAfterSuccess && addrs.length != 0 then
      (sliceFrom ans1 ((ans1.length : Int) - 1)).map fun s => (s, log1)
    else
      LookupHostsLoop LookupHost dns exitAfterSuccess dnsTimeout urls ans1 log1

/-- The function `LookupHosts`: looks up every hostname through resolver `dns`. -/
def LookupHosts (LookupHost : LookupOracle) (dns : String) (urls : List String)
    (exitAfterSuccess : Bool) (dnsTimeout : Int) (log : List LookupCall) :
    Option (List result × List LookupCall) :=
  LookupHostsLoop LookupHost dns exitAfterSuccess dnsTimeout urls [] log

/-- The inner loop of `checkResolving`: the first result with `len(res.ips) != 0`. -/
def firstResolved : List result → Option result
  | [] => none
  | res :: rest => if res.ips.length != 0 then some res else firstResolved rest

/-- The `for _, dns := range conf.DnsServers` loop of `checkResolving`. -/
def checkResolvingLoop (LookupHost : LookupOracle) (conf : dnsCheck) :
    List String → ResolveTrace → Option (Bool × ResolveTrace)
  | [], tr => some (false, { tr with stdout := tr.stdout ++ [ResolveLine.resolvingFailed] })
  | dns :: rest, tr =>
    match LookupHosts LookupHost dns conf.UrlsToCheck true
        (secondsToDuration conf.DnsTimeoutSec) tr.lookups with
    | none => none
    | some (urlResulrts, log) =>
      match firstResolved urlResulrts with
      | some res =>
        some (true, { lookups := log,
                      stdout := tr.stdout ++ [ResolveLine.successfulResolved dns res.url res.ips] })
      | none => checkResolvingLoop LookupHost conf rest { tr with lookups := log }

/-- The function `checkResolving`, started with an empty trace. -/
def checkResolving (LookupHost : LookupOracle) (conf : dnsCheck) : Option (Bool × ResolveTrace) :=
  checkResolvingLoop LookupHost conf conf.DnsServers { lookups := [], stdout := [] }

/-- The trial order: resolvers in the given order, and within a resolver the
hostnames in the given order. -/
def trialOrder (conf : dnsCheck) : List LookupCall :=
  conf.DnsServers.flatMap fun dns => conf.UrlsToCheck.map fun url => (dns, url)

/-- Address list the oracle returns for a recorded call under the timeout of `conf`. -/
def addrsOf (LookupHost : LookupOracle) (conf : dnsCheck) (c : LookupCall) : List String :=
  (LookupHost c.1 (secondsToDuration conf.DnsTimeoutSec) c.2).1

/-- Error the oracle returns for a recorded call under the timeout of `conf`. -/
def errOf (LookupHost : LookupOracle) (conf : dnsCheck) (c : LookupCall) : Option String :=
  (LookupHost c.1 (secondsToDuration conf.DnsTimeoutSec) c.2).2

/-! ### Sample oracles and configurations -/

/-- Resolver `R2` answers hostname `H2`; every other lookup fails with an error and no address. -/
def sampleLookup : LookupOracle := fun dns _ url =>
  if dns = "R2" ∧ url = "H2" then (["10.0.0.2"], none) else ([], some "no such host")

/-- Resolvers `R1, R2, R3` and hostnames `H1, H2`. -/
def sampleDns : dnsCheck :=
  { DnsServers := ["R1", "R2", "R3"], DnsTimeoutSec := 10, UrlsToCheck := ["H1", "H2"] }

/-- Every lookup returns no address and no error. -/
def emptyLookup : LookupOracle := fun _ _ _ => ([], none)

/-! ## Bounded port prober -/

/-- The `context.Context` values the program builds. -/
inductive Context where
  | Background
  | WithTimeout (parent : Context) (timeout : Int)
deriving DecidableEq, Repr

/-- The `nmap.Option` values the program builds. -/
inductive NmapOption where
  | WithUDPScan
  | WithTargets (addr : String)
  | WithPorts (port : String)
  | WithContext (ctx : Context)
deriving DecidableEq, Repr

/-- The record `scanReport`; `F` stands for `float32`. -/
structure scanReport (F : Type) where
  available : Bool
  latency : F
deriving DecidableEq, Repr

/-- The part of `nmap.Finished` the program reads. -/
structure Finished (F : Type) where
  Elapsed : F
deriving DecidableEq, Repr

/-- The part of `nmap.Stats` the program reads. -/
structure Stats (F : Type) where
  Finished : Finished F
deriving DecidableEq, Repr

/-- The part of `nmap.Run` the program reads: the hosts found and the run statistics. -/
structure Run (F : Type) where
  Hosts : List String
  Stats : Stats F
deriving DecidableEq, Repr

/-- What `scanner.Run()` returns: `(result, warnings, err)`; `none` stands for `nil`. -/
structure RunReply (F : Type) where
  result : Option (Run F)
  warnings : Option (List String)
  err : Option String
deriving DecidableEq, Repr

/-- Calls and output lines of the port checks, in program order. -/
inductive ScanEvent (F : Type) where
  | NewScanner (options : List NmapOption)
  | ScannerRun
  | UnableToCreate (err : String)
  | UnableToRun (err : String)
  | Warnings (warnings : List String)
  | OkScan (p : String) (url : String) (port : String) (latency : F)
  | FailScan (p : String) (url : String) (port : String)
deriving DecidableEq, Repr

/-- The option list `scanPort` hands to `nmap.NewScanner`. -/
def scanOptions (ctx : Context) (udp : Bool) (addr port : String) : List NmapOption :=
  let options := [NmapOption.WithUDPScan, NmapOption.WithTargets addr, NmapOption.WithPorts port,
    NmapOption.WithContext ctx]
  if udp then options.drop 1 else options

/-- The `if warnings != nil` print of `scanPort`. -/
def warningLines {F : Type} : Option (List String) → List (ScanEvent F)
  | some warnings => [ScanEvent.Warnings warnings]
  | none => []

/-- The function `scanPort`.  The first component is the returned report, `none` for
the panic on reading `result.Hosts` through a nil `result`; the second is the trace. -/
def scanPort {F S : Type} [Zero F] (NewScanner : List NmapOption → Except String S)
    (ScannerRun : S → RunReply F) (ctx : Context) (udp : Bool) (addr port : String) :
    Option (scanReport F) × List (ScanEvent F) :=
  let options := scanOptions ctx udp addr port
  match NewScanner options with
  | Except.error err =>
    (some { available := false, latency := 0 },
      [ScanEvent.NewScanner options, ScanEvent.UnableToCreate err])
  | Except.ok scanner =>
    let reply := ScannerRun scanner
    match reply.err with
    | some err =>
      (some { available := false, latency := 0 },
        [ScanEvent.NewScanner options, ScanEvent.ScannerRun, ScanEvent.UnableToRun err] ++
          warningLines reply.warnings)
    | none =>
      let tr := [ScanEvent.NewScanner options, ScanEvent.ScannerRun] ++ warningLines reply.warnings
      match reply.result with
      | none => (none, tr)
      | some result =>
        if result.Hosts.length == 0 then
          (some { available := false, latency := 0 }, tr)
        else
          (some { available := true, latency := result.Stats.Finished.Elapsed }, tr)

/-- The function `scanPortWithTimeout`. -/
def scanPortWithTimeout {F S : Type} [Zero F] (NewScanner : List NmapOption → Except String S)
    (ScannerRun : S → RunReply F) (timeout : Int) (udp : Bool) (addr port : String) :
    Option (scanReport F) × List (ScanEvent F) :=
  scanPort NewScanner ScannerRun (Context.WithTimeout Context.Background timeout) udp addr port

/-- How a call ended: it returned, or it panicked with a value. -/
inductive Completion where
  | returned
  | panicked (value : String)
deriving DecidableEq, Repr

/-- The protocol label `p` of `checkNmap`. -/
def protocolLabel (udp : Bool) : String := if udp then "udp" else "tcp"

/-- The `for _, check := range conf.NmapChecks` loop of `checkNmap`. -/
def checkNmapLoop {F S : Type} [Zero F] (NewScanner : List NmapOption → Except String S)
    (ScannerRun : S → RunReply F) :
    List nmapCheck → List (ScanEvent F) → Completion × List (ScanEvent F)
  | [], tr => (Completion.returned, tr)
  | check :: rest, tr =>
    match scanPortWithTimeout NewScanner ScannerRun (secondsToDuration check.TimeoutSec)
        check.Udp check.Url check.Port with
    | (none, out) => (Completion.panicked "nil pointer dereference", tr ++ out)
    | (some scanResult, out) =>
      let p := protocolLabel check.Udp
      if scanResult.available then
        checkNmapLoop NewScanner ScannerRun rest
          (tr ++ out ++ [ScanEvent.OkScan p check.Url check.Port scanResult.latency])
      else
        checkNmapLoop NewScanner ScannerRun rest
          (tr ++ out ++ [ScanEvent.FailScan p check.Url check.Port])

/-- The function `checkNmap`. -/
def checkNmap {F S : Type} [Zero F] (NewScanner : List NmapOption → Except String S)
    (ScannerRun : S → RunReply F) (conf : Config) : Completion × List (ScanEvent F) :=
  checkNmapLoop NewScanner ScannerRun conf.NmapChecks []

/-! ## Ping runs -/

/-- The part of `probing.Packet` the program prints. -/
structure Packet where
  Nbytes : Int
  IPAddr : String
  Seq : Int
  Rtt : Int
  TTL : Int
deriving DecidableEq, Repr

/-- The part of `probing.Statistics` the program prints; `F` stands for `float64`. -/
structure Statistics (F : Type) where
  Addr : String
  PacketsSent : Int
  PacketsRecv : Int
  PacketLoss : F
  MinRtt : Int
  AvgRtt : Int
  MaxRtt : Int
  StdDevRtt : Int
deriving DecidableEq, Repr

/-- The part of `probing.Pinger` the program uses. -/
structure Pinger where
  Addr : String
  IPAddr : String
  Count : Int
deriving DecidableEq, Repr

/-- A callback invoked by `pinger.Run()`. -/
inductive PingCallback (F : Type) where
  | OnRecv (pkt : Packet)
  | OnDuplicateRecv (pkt : Packet)
  | OnFinish (stats : Statistics F)
deriving DecidableEq, Repr

/-- Calls and output lines of the ping checks, in program order. -/
inductive PingEvent (F : Type) where
  | NewPinger (url : String)
  | PrintErr (err : String)
  | PingHeader (addr : String) (ipaddr : String)
  | PingerRun (pinger : Pinger)
  | RecvLine (pkt : Packet)
  | DupLine (pkt : Packet)
  | StatsLines (stats : Statistics F)
deriving DecidableEq, Repr

/-- The output of the handler `RunPing` installs for a callback. -/
def handlerLine {F : Type} : PingCallback F → PingEvent F
  | PingCallback.OnRecv pkt => PingEvent.RecvLine pkt
  | PingCallback.OnDuplicateRecv pkt => PingEvent.DupLine pkt
  | PingCallback.OnFinish stats => PingEvent.StatsLines stats

/-- The function `RunPing`: how the call ended and what it did. -/
def RunPing {F : Type} (NewPinger : String → Except String Pinger)
    (PingerRun : Pinger → List (PingCallback F) × Option String) (conf : pingCheck) :
    Completion × List (PingEvent F) :=
  match NewPinger conf.Url with
  | Except.error err => (Completion.returned, [PingEvent.NewPinger conf.Url, PingEvent.PrintErr err])
  | Except.ok pinger0 =>
    let pinger := { pinger0 with Count := conf.Count }
    let reply := PingerRun pinger
    let tr := [PingEvent.NewPinger conf.Url, PingEvent.PingHeader pinger.Addr pinger.IPAddr,
      PingEvent.PingerRun pinger] ++ reply.1.map handlerLine
    match reply.2 with
    | some err => (Completion.panicked err, tr)
    | none => (Completion.returned, tr)

/-- The `for _, pingConf := range conf.PingChecks` loop of `checkPing`; a panic in
`RunPing` unwinds through the loop. -/
def checkPingLoop {F : Type} (NewPinger : String → Except String Pinger)
    (PingerRun : Pinger → List (PingCallback F) × Option String) :
    List pingCheck → List (PingEvent F) → Completion × List (PingEvent F)
  | [], tr => (Completion.returned, tr)
  | pingConf :: rest, tr =>
    match RunPing NewPinger PingerRun pingConf with
    | (Completion.panicked value, out) => (Completion.panicked value, tr ++ out)
    | (Completion.returned, out) => checkPingLoop NewPinger PingerRun rest (tr ++ out)

/-- The function `checkPing`. -/
def checkPing {F : Type} (NewPinger : String → Except String Pinger)
    (PingerRun : Pinger → List (PingCallback F) × Option String) (conf : Config) :
    Completion × List (PingEvent F) :=
  checkPingLoop NewPinger PingerRun conf.PingChecks []

/-- The value `defaultConfig`. -/
def defaultConfig : Config :=
  { NsLookupCheck :=
      { DnsServers := ["8.8.8.8:53", "8.8.4.4:53", "77.88.8.8:53", "77.88.8.1:53"],
        DnsTimeoutSec := 10,
        UrlsToCheck := ["www.rbc.ru", "www.news.ru"] },
    NmapChecks :=
      [ { Url := "178.248.234.119", Port := "53", Udp := true, TimeoutSec := 10 },
        { Url := "178.248.234.119", Port := "443", Udp := false, TimeoutSec := 10 },
        { Url := "178.248.234.119", Port := "80", Udp := false, TimeoutSec := 10 },
        { Url := "www.rbc.ru", Port := "80", Udp := false, TimeoutSec := 10 } ],
    PingChecks :=
      [ { Url := "178.248.234.119", Count := 4 },
        { Url := "www.rbc.ru", Count := 4 } ] }

/-! ### Sample scanner and pinger oracles -/

/-- A scanner constructor that accepts every option list and hands the list back as the scanner. -/
def acceptScanner : List NmapOption → Except String (List NmapOption) := fun options =>
  Except.ok options

/-- A scanner constructor that rejects every option list. -/
def rejectScanner : List NmapOption → Except String (List NmapOption) := fun _ =>
  Except.error "nmap binary was not found"

/-- A scan that finds one host in 3 time units and returns the given warnings. -/
def oneHostRun (warnings : Option (List String)) : List NmapOption → RunReply Int := fun _ =>
  { result := some { Hosts := ["178.248.234.119"], Stats := { Finished := { Elapsed := 3 } } },
    warnings := warnings, err := none }

/-- A pinger constructor that accepts every target. -/
def acceptPinger : String → Except String Pinger := fun url =>
  Except.ok { Addr := url, IPAddr := url, Count := -1 }

/-- A ping run that fails for the first default target and finishes for every other one. -/
def firstTargetFails : Pinger → List (PingCallback Int) × Option String := fun pinger =>
  if pinger.Addr = "178.248.234.119" then ([], some "socket: permission denied") else ([], none)


/-- Hostnames `H1, H2` and no resolver. -/
def noResolverDns : dnsCheck :=
  { DnsServers := [], DnsTimeoutSec := 10, UrlsToCheck := ["H1", "H2"] }

/-- The first two port checks of `defaultConfig`: one with `udp: true`, one without. -/
def udpAndTcpConfig : Config :=
  { defaultConfig with NmapChecks := defaultConfig.NmapChecks.take 2 }

/-- The oracle in which every failing lookup is replaced by a lookup that returns no
address and no error: the reading "treated as a lookup with no addresses". -/
def treatFailedAsEmpty (LookupHost : LookupOracle) : LookupOracle := fun dns t url =>
  match (LookupHost dns t url).2 with
  | some _ => ([], none)
  | none => LookupHost dns t url

/-- A pinger constructor that fails for the first default target only. -/
def firstTargetUnknown : String → Except String Pinger := fun url =>
  if url = "178.248.234.119" then Except.error "lookup failed"
  else Except.ok { Addr := url, IPAddr := url, Count := -1 }

/-- A ping run that finishes without error and without callbacks. -/
def quietRun : Pinger → List (PingCallback Int) × Option String := fun _ => ([], none)

/-! ## Lemmas on the resolver loops -/

theorem sliceFrom_append_singleton {α : Type} (ans : List α) (x : α) :
    sliceFrom (ans ++ [x]) (((ans ++ [x]).length : Int) - 1) = some [x] := by
  have hlen : (((ans ++ [x]).length : Int) - 1) = (ans.length : Int) := by
    simp
  rw [hlen]
  unfold sliceFrom
  have hc : (0 : Int) ≤ (ans.length : Int) ∧ (ans.length : Int) ≤ ((ans ++ [x]).length : Int) := by
    constructor
    · exact Int.ofNat_nonneg _
    · simp
  rw [if_pos hc]
  simp

theorem nonempty_length_ne {α : Type} (l : List α) (h : l ≠ []) : (l.length != 0) = true := by
  cases l with
  | nil => exact absurd rfl h
  | cons a t => simp

theorem LookupHostsLoop_all_empty (L : LookupOracle) (dns : String) (T : Int) :
    ∀ (urls : List String) (ans : List result) (log : List LookupCall),
      (∀ url ∈ urls, (L dns T url).1 = []) →
      LookupHostsLoop L dns true T urls ans log =
        some (ans ++ urls.map (fun u => { url := u, ips := [] }),
              log ++ urls.map (fun u => (dns, u)))
  | [], ans, log, _ => by simp [LookupHostsLoop]
  | url :: urls, ans, log, h => by
    have h0 : (L dns T url).1 = [] := h url (by simp)
    have ih := LookupHostsLoop_all_empty L dns T urls (ans ++ [{ url := url, ips := [] }])
      (log ++ [(dns, url)]) (fun u hu => h u (by simp [hu]))
    simp [LookupHostsLoop, h0, ih]

theorem LookupHostsLoop_first_hit (L : LookupOracle) (dns : String) (T : Int) :
    ∀ (pre : List String) (u : String) (post : List String) (ans : List result)
      (log : List LookupCall),
      (∀ url ∈ pre, (L dns T url).1 = []) → (L dns T u).1 ≠ [] →
      LookupHostsLoop L dns true T (pre ++ u :: post) ans log =
        some ([{ url := u, ips := (L dns T u).1 }],
              log ++ pre.map (fun v => (dns, v)) ++ [(dns, u)])
  | [], u, post, ans, log, _, hu => by
    have hne := nonempty_length_ne _ hu
    simp only [List.nil_append, LookupHostsLoop, hne, Bool.and_self, if_true,
      sliceFrom_append_singleton, Option.map_some', List.map_nil, List.append_nil]
  | url :: pre, u, post, ans, log, h, hu => by
    have h0 : (L dns T url).1 = [] := h url (by simp)
    have ih := LookupHostsLoop_first_hit L dns T pre u post (ans ++ [{ url := url, ips := [] }])
      (log ++ [(dns, url)]) (fun v hv => h v (by simp [hv])) hu
    simp [LookupHostsLoop, h0, ih]

theorem firstResolved_all_empty :
    ∀ (urls : List String), firstResolved (urls.map (fun u => { url := u, ips := [] })) = none
  | [] => rfl
  | u :: urls => by simp [firstResolved, firstResolved_all_empty urls]

/-- Either a predicate fails on the whole list, or the list splits at its first element
satisfying the predicate. -/
theorem first_split {α : Type} (p : α → Prop) :
    ∀ (l : List α), (∀ x ∈ l, ¬ p x) ∨
      ∃ pre x post, l = pre ++ x :: post ∧ (∀ y ∈ pre, ¬ p y) ∧ p x
  | [] => Or.inl (by simp)
  | a :: l => by
    by_cases ha : p a
    · exact Or.inr ⟨[], a, l, rfl, by simp, ha⟩
    · rcases first_split p l with h | ⟨pre, x, post, hl, hpre, hx⟩
      · left
        intro x hx
        rcases List.mem_cons.mp hx with rfl | hx
        · exact ha
        · exact h x hx
      · right
        refine ⟨a :: pre, x, post, by simp [hl], ?_, hx⟩
        intro y hy
        rcases List.mem_cons.mp hy with rfl | hy
        · exact ha
        · exact hpre y hy

theorem mem_trialOrder (conf : dnsCheck) (c : LookupCall) :
    c ∈ trialOrder conf ↔ c.1 ∈ conf.DnsServers ∧ c.2 ∈ conf.UrlsToCheck := by
  obtain ⟨d, u⟩ := c
  simp [trialOrder, List.mem_flatMap]

theorem checkResolvingLoop_all_empty (L : LookupOracle) (conf : dnsCheck) :
    ∀ (servers : List String) (tr : ResolveTrace),
      (∀ dns ∈ servers, ∀ url ∈ conf.UrlsToCheck,
        (L dns (secondsToDuration conf.DnsTimeoutSec) url).1 = []) →
      checkResolvingLoop L conf servers tr =
        some (false,
          { lookups := tr.lookups ++
              servers.flatMap (fun dns => conf.UrlsToCheck.map fun url => (dns, url)),
            stdout := tr.stdout ++ [ResolveLine.resolvingFailed] })
  | [], tr, _ => by simp [checkResolvingLoop]
  | dns :: rest, tr, h => by
    have h0 := LookupHostsLoop_all_empty L dns (secondsToDuration conf.DnsTimeoutSec)
      conf.UrlsToCheck [] tr.lookups (h dns (by simp))
    have ih := checkResolvingLoop_all_empty L conf rest
      { tr with lookups := tr.lookups ++ conf.UrlsToCheck.map (fun u => (dns, u)) }
      (fun d hd => h d (by simp [hd]))
    simp only [checkResolvingLoop, LookupHosts, h0, List.nil_append, firstResolved_all_empty, ih]
    simp

theorem checkResolvingLoop_first_hit (L : LookupOracle) (conf : dnsCheck) :
    ∀ (spre : List String) (d : String) (spost : List String) (tr : ResolveTrace)
      (pre : List String) (u : String) (post : List String),
      conf.UrlsToCheck = pre ++ u :: post →
      (∀ dns ∈ spre, ∀ url ∈ conf.UrlsToCheck,
        (L dns (secondsToDuration conf.DnsTimeoutSec) url).1 = []) →
      (∀ url ∈ pre, (L d (secondsToDuration conf.DnsTimeoutSec) url).1 = []) →
      (L d (secondsToDuration conf.DnsTimeoutSec) u).1 ≠ [] →
      checkResolvingLoop L conf (spre ++ d :: spost) tr =
        some (true,
          { lookups := tr.lookups ++
              (spre.flatMap (fun dns => conf.UrlsToCheck.map fun url => (dns, url)) ++
                pre.map (fun v => (d, v))) ++ [(d, u)],
            stdout := tr.stdout ++ [ResolveLine.successfulResolved d u
              (L d (secondsToDuration conf.DnsTimeoutSec) u).1] })
  | [], d, spost, tr, pre, u, post, hurls, _, hpre, hu => by
    have h0 := LookupHostsLoop_first_hit L d (secondsToDuration conf.DnsTimeoutSec)
      pre u post [] tr.lookups hpre hu
    have hne := nonempty_length_ne _ hu
    simp only [List.nil_append, checkResolvingLoop, LookupHosts, hurls, h0, firstResolved, hne,
      if_true, List.flatMap_nil, List.append_assoc]
  | dns :: spre, d, spost, tr, pre, u, post, hurls, hs, hpre, hu => by
    have h0 := LookupHostsLoop_all_empty L dns (secondsToDuration conf.DnsTimeoutSec)
      conf.UrlsToCheck [] tr.lookups (hs dns (by simp))
    have ih := checkResolvingLoop_first_hit L conf spre d spost
      { tr with lookups := tr.lookups ++ conf.UrlsToCheck.map (fun v => (dns, v)) }
      pre u post hurls (fun d1 hd => hs d1 (by simp [hd])) hpre hu
    rw [List.cons_append]
    simp only [checkResolvingLoop, LookupHosts, h0, List.nil_append, firstResolved_all_empty]
    rw [ih]
    simp

/-- The two ways a run of `checkResolving` ends: exhaustion of the whole trial
order with every lookup empty, or a stop at the first lookup with an address. -/
theorem checkResolving_cases (L : LookupOracle) (conf : dnsCheck) :
    ((∀ c ∈ trialOrder conf, addrsOf L conf c = []) ∧
      checkResolving L conf =
        some (false, { lookups := trialOrder conf, stdout := [ResolveLine.resolvingFailed] })) ∨
    (∃ pre d u, (pre ++ [(d, u)]) <+: trialOrder conf ∧
      (∀ c ∈ pre, addrsOf L conf c = []) ∧ addrsOf L conf (d, u) ≠ [] ∧
      checkResolving L conf =
        some (true, { lookups := pre ++ [(d, u)],
                      stdout := [ResolveLine.successfulResolved d u (addrsOf L conf (d, u))] })) := by
  rcases first_split
      (fun d => ∃ u ∈ conf.UrlsToCheck, (L d (secondsToDuration conf.DnsTimeoutSec) u).1 ≠ [])
      conf.DnsServers with hall | ⟨spre, d, spost, hs, hspre, hd⟩
  · left
    have hall2 : ∀ dns ∈ conf.DnsServers, ∀ url ∈ conf.UrlsToCheck,
        (L dns (secondsToDuration conf.DnsTimeoutSec) url).1 = [] := by
      intro dns hdns url hurl
      by_contra hne
      exact hall dns hdns ⟨url, hurl, hne⟩
    refine ⟨?_, ?_⟩
    · intro c hc
      rw [mem_trialOrder] at hc
      exact hall2 c.1 hc.1 c.2 hc.2
    · have h := checkResolvingLoop_all_empty L conf conf.DnsServers
        { lookups := [], stdout := [] } hall2
      simpa [checkResolving, trialOrder] using h
  · right
    rcases first_split (fun u => (L d (secondsToDuration conf.DnsTimeoutSec) u).1 ≠ [])
        conf.UrlsToCheck with hnone | ⟨pre, u, post, hu, hpre, hhit⟩
    · obtain ⟨u, hu, hne⟩ := hd
      exact absurd hne (hnone u hu)
    · have hspre2 : ∀ dns ∈ spre, ∀ url ∈ conf.UrlsToCheck,
          (L dns (secondsToDuration conf.DnsTimeoutSec) url).1 = [] := by
        intro dns hdns url hurl
        by_contra hne
        exact hspre dns hdns ⟨url, hurl, hne⟩
      have hpre2 : ∀ url ∈ pre, (L d (secondsToDuration conf.DnsTimeoutSec) url).1 = [] := by
        intro url hurl
        by_contra hne
        exact hpre url hurl hne
      have h := checkResolvingLoop_first_hit L conf spre d spost { lookups := [], stdout := [] }
        pre u post hu hspre2 hpre2 hhit
      refine ⟨spre.flatMap (fun dns => conf.UrlsToCheck.map fun url => (dns, url)) ++
          pre.map (fun v => (d, v)), d, u, ?_, ?_, hhit, ?_⟩
      · refine ⟨post.map (fun v => (d, v)) ++
          spost.flatMap (fun dns => conf.UrlsToCheck.map fun url => (dns, url)), ?_⟩
        simp only [trialOrder, hs, List.flatMap_append, List.flatMap_cons]
        rw [hu]
        simp
      · intro c hc
        rcases List.mem_append.mp hc with hc | hc
        · obtain ⟨dns, hdns, hc⟩ := List.mem_flatMap.mp hc
          obtain ⟨url, hurl, rfl⟩ := List.mem_map.mp hc
          exact hspre2 dns hdns url hurl
        · obtain ⟨url, hurl, rfl⟩ := List.mem_map.mp hc
          exact hpre2 url hurl
      · rw [checkResolving, hs, h]
        simp [addrsOf]

theorem flatMap_pairs_length (urls : List String) :
    ∀ (servers : List String),
      (servers.flatMap fun dns => urls.map fun url => (dns, url)).length =
        servers.length * urls.length
  | [] => by simp
  | d :: servers => by
    simp [flatMap_pairs_length urls servers, Nat.succ_mul, Nat.add_comm]

theorem trialOrder_eq_nil (conf : dnsCheck) (h : conf.DnsServers = [] ∨ conf.UrlsToCheck = []) :
    trialOrder conf = [] := by
  have hlen : (trialOrder conf).length = 0 := by
    unfold trialOrder
    rw [flatMap_pairs_length]
    rcases h with h | h <;> simp [h]
  exact List.length_eq_zero.mp hlen

theorem LookupHostsLoop_congr (L1 L2 : LookupOracle) (dns : String) (e : Bool) (T : Int) :
    ∀ (urls : List String) (ans : List result) (log : List LookupCall),
      (∀ url ∈ urls, (L1 dns T url).1 = (L2 dns T url).1) →
      LookupHostsLoop L1 dns e T urls ans log = LookupHostsLoop L2 dns e T urls ans log
  | [], ans, log, _ => by simp [LookupHostsLoop]
  | url :: urls, ans, log, h => by
    have h0 : (L1 dns T url).1 = (L2 dns T url).1 := h url (by simp)
    have ih := fun a l => LookupHostsLoop_congr L1 L2 dns e T urls a l
      (fun v hv => h v (by simp [hv]))
    simp only [LookupHostsLoop, h0, ih]

theorem checkResolvingLoop_congr (L1 L2 : LookupOracle) (conf : dnsCheck) :
    ∀ (servers : List String) (tr : ResolveTrace),
      (∀ dns ∈ servers, ∀ url ∈ conf.UrlsToCheck,
        (L1 dns (secondsToDuration conf.DnsTimeoutSec) url).1 =
          (L2 dns (secondsToDuration conf.DnsTimeoutSec) url).1) →
      checkResolvingLoop L1 conf servers tr = checkResolvingLoop L2 conf servers tr
  | [], tr, _ => by simp [checkResolvingLoop]
  | dns :: rest, tr, h => by
    have h0 := LookupHostsLoop_congr L1 L2 dns true (secondsToDuration conf.DnsTimeoutSec)
      conf.UrlsToCheck [] tr.lookups (h dns (by simp))
    have ih := fun t => checkResolvingLoop_congr L1 L2 conf rest t
      (fun d hd => h d (by simp [hd]))
    simp only [checkResolvingLoop, LookupHosts, h0, ih]

/-! ## Resolver fallback: the claims -/

/-- C1: `checkResolving` always returns, and it returns true if and only if some resolver
of the list and some hostname of the list have a lookup with a non-empty address list;
otherwise it returns false. -/
theorem checkResolving_true_iff (LookupHost : LookupOracle) (conf : dnsCheck) :
    ∃ b tr, checkResolving LookupHost conf = some (b, tr) ∧
      (b = true ↔ ∃ dns ∈ conf.DnsServers, ∃ url ∈ conf.UrlsToCheck,
        (LookupHost dns (secondsToDuration conf.DnsTimeoutSec) url).1 ≠ []) := by
  rcases checkResolving_cases LookupHost conf with
    ⟨hall, hrun⟩ | ⟨pre, d, u, hpfx, _, hhit, hrun⟩
  · refine ⟨false, _, hrun, ?_⟩
    constructor
    · intro h
      cases h
    · rintro ⟨dns, hdns, url, hurl, hne⟩
      exact absurd (hall (dns, url) ((mem_trialOrder conf _).2 ⟨hdns, hurl⟩)) hne
  · refine ⟨true, _, hrun, ?_⟩
    constructor
    · intro _
      have hmem : (d, u) ∈ trialOrder conf := hpfx.subset (by simp)
      rw [mem_trialOrder] at hmem
      exact ⟨d, hmem.1, u, hmem.2, hhit⟩
    · intro _
      rfl

/-- C2 (resolver short-circuit): when some (resolver, hostname) pair resolves to a non-empty
address list, `checkResolving` returns true, prints exactly one line naming a pair and that
lookup's addresses, and the lookups it performed are a prefix of the trial order that ends
with that pair, every earlier lookup having returned no address: the pair is the first
successful one in trial order and nothing after it is looked up. -/
theorem checkResolving_short_circuit (LookupHost : LookupOracle) (conf : dnsCheck)
    (h : ∃ dns ∈ conf.DnsServers, ∃ url ∈ conf.UrlsToCheck,
      (LookupHost dns (secondsToDuration conf.DnsTimeoutSec) url).1 ≠ []) :
    ∃ pre dns url,
      checkResolving LookupHost conf =
        some (true, { lookups := pre ++ [(dns, url)],
                      stdout := [ResolveLine.successfulResolved dns url
                        (addrsOf LookupHost conf (dns, url))] }) ∧
      (pre ++ [(dns, url)]) <+: trialOrder conf ∧
      (∀ c ∈ pre, addrsOf LookupHost conf c = []) ∧
      addrsOf LookupHost conf (dns, url) ≠ [] := by
  rcases checkResolving_cases LookupHost conf with
    ⟨hall, _⟩ | ⟨pre, d, u, hpfx, hpre, hhit, hrun⟩
  · obtain ⟨dns, hdns, url, hurl, hne⟩ := h
    exact absurd (hall (dns, url) ((mem_trialOrder conf _).2 ⟨hdns, hurl⟩)) hne
  · exact ⟨pre, d, u, hrun, hpfx, hpre, hhit⟩

/-- C3 (resolver exhaustion): when every (resolver, hostname) lookup yields an empty address
list, `checkResolving` returns false and the lookups it performed are exactly the trial
order, resolver list crossed with hostname list, each position once. -/
theorem checkResolving_exhaustion (LookupHost : LookupOracle) (conf : dnsCheck)
    (h : ∀ dns ∈ conf.DnsServers, ∀ url ∈ conf.UrlsToCheck,
      (LookupHost dns (secondsToDuration conf.DnsTimeoutSec) url).1 = []) :
    checkResolving LookupHost conf =
        some (false, { lookups := trialOrder conf, stdout := [ResolveLine.resolvingFailed] }) ∧
      (trialOrder conf).length = conf.DnsServers.length * conf.UrlsToCheck.length := by
  refine ⟨?_, flatMap_pairs_length _ _⟩
  rcases checkResolving_cases LookupHost conf with
    ⟨_, hrun⟩ | ⟨pre, d, u, hpfx, _, hhit, _⟩
  · exact hrun
  · have hmem : (d, u) ∈ trialOrder conf := hpfx.subset (by simp)
    rw [mem_trialOrder] at hmem
    exact absurd (h d hmem.1 u hmem.2) hhit

/-- C4 (empty input safety): with an empty resolver list or an empty hostname list
`checkResolving` returns false, without a panic and without performing any lookup. -/
theorem checkResolving_empty_input (LookupHost : LookupOracle) (conf : dnsCheck)
    (h : conf.DnsServers = [] ∨ conf.UrlsToCheck = []) :
    checkResolving LookupHost conf =
      some (false, { lookups := [], stdout := [ResolveLine.resolvingFailed] }) := by
  have hnil := trialOrder_eq_nil conf h
  rcases checkResolving_cases LookupHost conf with
    ⟨_, hrun⟩ | ⟨pre, d, u, hpfx, _, _, _⟩
  · rw [hrun, hnil]
  · have hmem : (d, u) ∈ trialOrder conf := hpfx.subset (by simp)
    rw [hnil] at hmem
    cases hmem

/-- C5: a failing lookup, which in Go returns no address, is treated as a lookup with no
addresses.  For every oracle whose failing replies carry no address: the run equals the run
in which each failing lookup is replaced by an empty, error-free one; the run returns; it
returns true exactly when some pair of the trial order has a lookup without error and with
an address, so a failing lookup never counts as a success; the pair reported on success has
no error; the lookups performed are a prefix of the trial order and, on failure, all of it;
and whenever a failing lookup was performed and the trial order has a next position, that
next lookup was performed too, so a failure never aborts the trial. -/
theorem checkResolving_failed_lookups (LookupHost : LookupOracle) (conf : dnsCheck)
    (hfail : ∀ c ∈ trialOrder conf, errOf LookupHost conf c ≠ none →
      addrsOf LookupHost conf c = []) :
    checkResolving LookupHost conf = checkResolving (treatFailedAsEmpty LookupHost) conf ∧
    ∃ b tr, checkResolving LookupHost conf = some (b, tr) ∧
      (b = true ↔ ∃ c ∈ trialOrder conf,
        errOf LookupHost conf c = none ∧ addrsOf LookupHost conf c ≠ []) ∧
      (b = false →
        tr.lookups = trialOrder conf ∧ tr.stdout = [ResolveLine.resolvingFailed]) ∧
      (b = true → ∃ pre dns url,
        tr.lookups = pre ++ [(dns, url)] ∧
        tr.stdout = [ResolveLine.successfulResolved dns url
          (addrsOf LookupHost conf (dns, url))] ∧
        errOf LookupHost conf (dns, url) = none ∧
        addrsOf LookupHost conf (dns, url) ≠ [] ∧
        ∀ c ∈ pre, addrsOf LookupHost conf c = []) ∧
      tr.lookups <+: trialOrder conf ∧
      (∀ pre c next rest, trialOrder conf = pre ++ c :: next :: rest →
        (pre ++ [c]) <+: tr.lookups → errOf LookupHost conf c ≠ none →
        (pre ++ [c, next]) <+: tr.lookups) := by
  constructor
  · apply checkResolvingLoop_congr
    intro dns hdns url hurl
    have hc := hfail (dns, url) ((mem_trialOrder conf _).2 ⟨hdns, hurl⟩)
    simp only [errOf, addrsOf] at hc
    unfold treatFailedAsEmpty
    cases herr : (LookupHost dns (secondsToDuration conf.DnsTimeoutSec) url).2 with
    | none => rfl
    | some e =>
      have := hc (by rw [herr]; simp)
      simpa using this
  · rcases checkResolving_cases LookupHost conf with
      ⟨hall, hrun⟩ | ⟨pre0, d, u, hpfx, hpre0, hhit, hrun⟩
    · refine ⟨false, _, hrun, ?_, ?_, ?_, ?_, ?_⟩
      · constructor
        · intro h
          cases h
        · rintro ⟨c, hc, _, hne⟩
          exact absurd (hall c hc) hne
      · intro _
        exact ⟨rfl, rfl⟩
      · intro h
        cases h
      · exact List.prefix_refl _
      · intro pre c next rest htri _ _
        refine ⟨rest, ?_⟩
        show (pre ++ [c, next]) ++ rest = trialOrder conf
        rw [htri]
        simp
    · have hmem : (d, u) ∈ trialOrder conf := hpfx.subset (by simp)
      have herrdu : errOf LookupHost conf (d, u) = none := by
        by_contra herr
        exact hhit (hfail (d, u) hmem herr)
      refine ⟨true, _, hrun, ?_, ?_, ?_, hpfx, ?_⟩
      · constructor
        · intro _
          exact ⟨(d, u), hmem, herrdu, hhit⟩
        · intro _
          rfl
      · intro h
        cases h
      · intro _
        exact ⟨pre0, d, u, rfl, rfl, herrdu, hhit, hpre0⟩
      · intro pre c next rest htri hreach herr
        have hcmem : c ∈ trialOrder conf := by
          rw [htri]
          simp
        have hc0 : addrsOf LookupHost conf c = [] := hfail c hcmem herr
        have hle : (pre ++ [c]).length ≤ (pre0 ++ [(d, u)]).length := hreach.length_le
        have hne : (pre ++ [c]).length ≠ (pre0 ++ [(d, u)]).length := by
          intro heq
          have hlists : pre ++ [c] = pre0 ++ [(d, u)] := hreach.eq_of_length heq
          have hcd : c = (d, u) := by
            have := (List.append_inj' hlists rfl).2
            simpa using this
          rw [hcd] at hc0
          exact hhit hc0
        have hnext : (pre ++ [c, next]) <+: trialOrder conf := by
          refine ⟨rest, ?_⟩
          rw [htri]
          simp
        apply List.prefix_of_prefix_length_le hnext hpfx
        simp only [List.length_append, List.length_cons, List.length_nil] at hle hne ⊢
        omega

/-- Witness for C2: resolver `R1` fails both hostnames, `R2` answers `H2`, `R3` follows. -/
theorem checkResolving_short_circuit_witness :
    (∃ dns ∈ sampleDns.DnsServers, ∃ url ∈ sampleDns.UrlsToCheck,
      (sampleLookup dns (secondsToDuration sampleDns.DnsTimeoutSec) url).1 ≠ []) ∧
    (∃ pre dns url,
      checkResolving sampleLookup sampleDns =
        some (true, { lookups := pre ++ [(dns, url)],
                      stdout := [ResolveLine.successfulResolved dns url
                        (addrsOf sampleLookup sampleDns (dns, url))] }) ∧
      (pre ++ [(dns, url)]) <+: trialOrder sampleDns ∧
      (∀ c ∈ pre, addrsOf sampleLookup sampleDns c = []) ∧
      addrsOf sampleLookup sampleDns (dns, url) ≠ []) :=
  ⟨⟨"R2", by decide, "H2", by decide, by decide⟩,
    checkResolving_short_circuit sampleLookup sampleDns
      ⟨"R2", by decide, "H2", by decide, by decide⟩⟩

/-- Witness for C3: three resolvers and two hostnames, every lookup empty. -/
theorem checkResolving_exhaustion_witness :
    (∀ dns ∈ sampleDns.DnsServers, ∀ url ∈ sampleDns.UrlsToCheck,
      (emptyLookup dns (secondsToDuration sampleDns.DnsTimeoutSec) url).1 = []) ∧
    (checkResolving emptyLookup sampleDns =
        some (false, { lookups := trialOrder sampleDns,
                       stdout := [ResolveLine.resolvingFailed] }) ∧
      (trialOrder sampleDns).length = sampleDns.DnsServers.length * sampleDns.UrlsToCheck.length) :=
  ⟨fun _ _ _ _ => rfl, checkResolving_exhaustion emptyLookup sampleDns (fun _ _ _ _ => rfl)⟩

/-- Witness for C4: an empty resolver list. -/
theorem checkResolving_empty_input_witness :
    (noResolverDns.DnsServers = [] ∨ noResolverDns.UrlsToCheck = []) ∧
    checkResolving sampleLookup noResolverDns =
      some (false, { lookups := [], stdout := [ResolveLine.resolvingFailed] }) :=
  ⟨Or.inl rfl, checkResolving_empty_input sampleLookup noResolverDns (Or.inl rfl)⟩

theorem sampleLookup_failures_empty :
    ∀ c ∈ trialOrder sampleDns, errOf sampleLookup sampleDns c ≠ none →
      addrsOf sampleLookup sampleDns c = [] := by
  intro c _ herr
  obtain ⟨d, u⟩ := c
  simp only [errOf, addrsOf, sampleLookup] at herr ⊢
  split_ifs at herr ⊢ with hc
  · exact absurd rfl herr
  · rfl

/-- Witness for C5: every lookup but `(R2, H2)` fails with an error and no address. -/
theorem checkResolving_failed_lookups_witness :
    (∀ c ∈ trialOrder sampleDns, errOf sampleLookup sampleDns c ≠ none →
      addrsOf sampleLookup sampleDns c = []) ∧
    (checkResolving sampleLookup sampleDns =
        checkResolving (treatFailedAsEmpty sampleLookup) sampleDns ∧
      ∃ b tr, checkResolving sampleLookup sampleDns = some (b, tr) ∧
        (b = true ↔ ∃ c ∈ trialOrder sampleDns,
          errOf sampleLookup sampleDns c = none ∧ addrsOf sampleLookup sampleDns c ≠ []) ∧
        (b = false →
          tr.lookups = trialOrder sampleDns ∧ tr.stdout = [ResolveLine.resolvingFailed]) ∧
        (b = true → ∃ pre dns url,
          tr.lookups = pre ++ [(dns, url)] ∧
          tr.stdout = [ResolveLine.successfulResolved dns url
            (addrsOf sampleLookup sampleDns (dns, url))] ∧
          errOf sampleLookup sampleDns (dns, url) = none ∧
          addrsOf sampleLookup sampleDns (dns, url) ≠ [] ∧
          ∀ c ∈ pre, addrsOf sampleLookup sampleDns c = []) ∧
        tr.lookups <+: trialOrder sampleDns ∧
        (∀ pre c next rest, trialOrder sampleDns = pre ++ c :: next :: rest →
          (pre ++ [c]) <+: tr.lookups → errOf sampleLookup sampleDns c ≠ none →
          (pre ++ [c, next]) <+: tr.lookups)) :=
  ⟨sampleLookup_failures_empty,
    checkResolving_failed_lookups sampleLookup sampleDns sampleLookup_failures_empty⟩

/-! ## Bounded port prober: the claims -/

/-- C6: `scanPort` returns `available = true` if and only if scanner construction succeeds,
execution succeeds and the scan result lists at least one host, and then `latency` is the
elapsed time of the scan result; on construction failure, on execution failure and on zero
hosts it returns `available = false` with `latency = 0`, the same report in all three. -/
theorem scanPort_report {F S : Type} [Zero F] (NewScanner : List NmapOption → Except String S)
    (ScannerRun : S → RunReply F) (ctx : Context) (udp : Bool) (addr port : String) :
    ((∃ rep, (scanPort NewScanner ScannerRun ctx udp addr port).1 = some rep ∧
        rep.available = true) ↔
      ∃ scanner res, NewScanner (scanOptions ctx udp addr port) = Except.ok scanner ∧
        (ScannerRun scanner).err = none ∧ (ScannerRun scanner).result = some res ∧
        res.Hosts ≠ []) ∧
    (∀ scanner res, NewScanner (scanOptions ctx udp addr port) = Except.ok scanner →
      (ScannerRun scanner).err = none → (ScannerRun scanner).result = some res →
      res.Hosts ≠ [] →
      (scanPort NewScanner ScannerRun ctx udp addr port).1 =
        some { available := true, latency := res.Stats.Finished.Elapsed }) ∧
    (∀ err, NewScanner (scanOptions ctx udp addr port) = Except.error err →
      (scanPort NewScanner ScannerRun ctx udp addr port).1 =
        some { available := false, latency := 0 }) ∧
    (∀ scanner err, NewScanner (scanOptions ctx udp addr port) = Except.ok scanner →
      (ScannerRun scanner).err = some err →
      (scanPort NewScanner ScannerRun ctx udp addr port).1 =
        some { available := false, latency := 0 }) ∧
    (∀ scanner res, NewScanner (scanOptions ctx udp addr port) = Except.ok scanner →
      (ScannerRun scanner).err = none → (ScannerRun scanner).result = some res →
      res.Hosts = [] →
      (scanPort NewScanner ScannerRun ctx udp addr port).1 =
        some { available := false, latency := 0 }) := by
  cases hnew : NewScanner (scanOptions ctx udp addr port) with
  | error e => simp [scanPort, hnew]
  | ok scanner =>
    cases herr : (ScannerRun scanner).err with
    | some e =>
      simp only [scanPort, hnew, herr]
      refine ⟨?_, ?_, ?_, ?_, ?_⟩
      · simp [herr]
      · rintro s r hs h1
        cases hs
        rw [herr] at h1
        cases h1
      · simp
      · simp
      · simp
    | none =>
      cases hres : (ScannerRun scanner).result with
      | none =>
        simp only [scanPort, hnew, herr, hres]
        refine ⟨?_, ?_, ?_, ?_, ?_⟩
        · simp [herr, hres]
        · rintro s r hs _ h2
          cases hs
          rw [hres] at h2
          cases h2
        · simp
        · rintro s e hs h1
          cases hs
          rw [herr] at h1
          cases h1
        · rintro s r hs _ h2
          cases hs
          rw [hres] at h2
          cases h2
      | some res =>
        cases hh : res.Hosts with
        | nil =>
          simp only [scanPort, hnew, herr, hres, hh]
          refine ⟨?_, ?_, ?_, ?_, ?_⟩
          · simp [herr, hres, hh]
          · rintro s r hs _ h2 h3
            cases hs
            rw [hres] at h2
            cases h2
            exact absurd hh h3
          · simp
          · simp
          · simp
        | cons a t =>
          simp only [scanPort, hnew, herr, hres, hh]
          refine ⟨?_, ?_, ?_, ?_, ?_⟩
          · simp [herr, hres, hh]
          · rintro s r hs _ h2 _
            cases hs
            rw [hres] at h2
            cases h2
            simp
          · simp
          · rintro s e hs h1
            cases hs
            rw [herr] at h1
            cases h1
          · rintro s r hs _ h2 h3
            cases hs
            rw [hres] at h2
            cases h2
            rw [hh] at h3
            cases h3

/-- C7 fails on the code: the check labelled `udp` is scanned without the UDP-scan option
and the check labelled `tcp` is scanned with it. -/
theorem udp_check_scans_without_udp_option :
    checkNmap acceptScanner (oneHostRun none) udpAndTcpConfig =
      (Completion.returned,
        [ ScanEvent.NewScanner
            [ NmapOption.WithTargets "178.248.234.119", NmapOption.WithPorts "53",
              NmapOption.WithContext (Context.WithTimeout Context.Background 10000000000) ],
          ScanEvent.ScannerRun,
          ScanEvent.OkScan "udp" "178.248.234.119" "53" 3,
          ScanEvent.NewScanner
            [ NmapOption.WithUDPScan,
              NmapOption.WithTargets "178.248.234.119", NmapOption.WithPorts "443",
              NmapOption.WithContext (Context.WithTimeout Context.Background 10000000000) ],
          ScanEvent.ScannerRun,
          ScanEvent.OkScan "tcp" "178.248.234.119" "443" 3 ]) := by
  rfl

/-- C8 fails on the code: when `pinger.Run` fails for the first target, `RunPing` panics and
`checkPing` never starts the second target; a failure of `ping.NewPinger` for the first
target, in contrast, is printed and the second target is still pinged. -/
theorem ping_run_failure_aborts_later_targets :
    checkPing acceptPinger firstTargetFails defaultConfig =
        (Completion.panicked "socket: permission denied",
          [ PingEvent.NewPinger "178.248.234.119",
            PingEvent.PingHeader "178.248.234.119" "178.248.234.119",
            PingEvent.PingerRun { Addr := "178.248.234.119", IPAddr := "178.248.234.119",
                                  Count := 4 } ]) ∧
      checkPing firstTargetUnknown quietRun defaultConfig =
        (Completion.returned,
          [ PingEvent.NewPinger "178.248.234.119",
            PingEvent.PrintErr "lookup failed",
            PingEvent.NewPinger "www.rbc.ru",
            PingEvent.PingHeader "www.rbc.ru" "www.rbc.ru",
            PingEvent.PingerRun { Addr := "www.rbc.ru", IPAddr := "www.rbc.ru", Count := 4 } ]) := by
  constructor
  · rfl
  · rfl

/-- C9: two runs of `scanPort` with the same scanner construction outcome, the same
execution error and the same scan result, differing only in the warnings, return the same
`scanReport`. -/
theorem scanPort_warnings_irrelevant {F S : Type} [Zero F]
    (NewScanner : List NmapOption → Except String S) (Run1 Run2 : S → RunReply F)
    (ctx : Context) (udp : Bool) (addr port : String)
    (h : ∀ s, (Run1 s).result = (Run2 s).result ∧ (Run1 s).err = (Run2 s).err) :
    (scanPort NewScanner Run1 ctx udp addr port).1 =
      (scanPort NewScanner Run2 ctx udp addr port).1 := by
  cases hnew : NewScanner (scanOptions ctx udp addr port) with
  | error e => simp [scanPort, hnew]
  | ok scanner =>
    obtain ⟨hr, he⟩ := h scanner
    cases h1 : (Run1 scanner).err with
    | some e => simp [scanPort, hnew, ← he, h1]
    | none =>
      cases h2 : (Run1 scanner).result with
      | none => simp [scanPort, hnew, ← he, ← hr, h1, h2]
      | some res =>
        simp only [scanPort, hnew, ← he, ← hr, h1, h2]
        split_ifs <;> rfl

/-- Witness for C9: one host found, once without warnings and once with one warning; the
reports agree although the printed output differs. -/
theorem scanPort_warnings_irrelevant_witness :
    (∀ s, (oneHostRun none s).result = (oneHostRun (some ["RTTVAR has grown"]) s).result ∧
      (oneHostRun none s).err = (oneHostRun (some ["RTTVAR has grown"]) s).err) ∧
    (scanPort acceptScanner (oneHostRun none) Context.Background false "www.rbc.ru" "80").1 =
      (scanPort acceptScanner (oneHostRun (some ["RTTVAR has grown"])) Context.Background false
        "www.rbc.ru" "80").1 ∧
    (scanPort acceptScanner (oneHostRun none) Context.Background false "www.rbc.ru" "80").2 ≠
      (scanPort acceptScanner (oneHostRun (some ["RTTVAR has grown"])) Context.Background false
        "www.rbc.ru" "80").2 :=
  ⟨fun _ => ⟨rfl, rfl⟩,
    scanPort_warnings_irrelevant acceptScanner (oneHostRun none)
      (oneHostRun (some ["RTTVAR has grown"])) Context.Background false "www.rbc.ru" "80"
      (fun _ => ⟨rfl, rfl⟩),
    by decide⟩

/-- C10: for either value of the udp flag, the first thing `scanPortWithTimeout` does is
construct the scanner, once, by applying `nmap.NewScanner` to an option list that contains
the target option for `addr`, the port option for `port` and the context option carrying
the timeout, in that order; the slice taken when `udp` is set removes only the leading
UDP-scan option.  The outcome of the call is the outcome of that construction: its error
when it fails, and otherwise the outcome of running the scanner it returned, so the scan
that runs is the one constructed under the timeout-bounded context. -/
theorem scanPortWithTimeout_options {F S : Type} [Zero F]
    (NewScanner : List NmapOption → Except String S) (ScannerRun : S → RunReply F)
    (timeout : Int) (udp : Bool) (addr port : String) :
    ∃ options rest,
      (scanPortWithTimeout NewScanner ScannerRun timeout udp addr port).2 =
        ScanEvent.NewScanner options :: rest ∧
      (∀ e ∈ rest, ∀ o, e ≠ ScanEvent.NewScanner o) ∧
      options = (if udp then [] else [NmapOption.WithUDPScan]) ++
        [ NmapOption.WithTargets addr, NmapOption.WithPorts port,
          NmapOption.WithContext (Context.WithTimeout Context.Background timeout) ] ∧
      List.Sublist
        [ NmapOption.WithTargets addr, NmapOption.WithPorts port,
          NmapOption.WithContext (Context.WithTimeout Context.Background timeout) ] options ∧
      (∀ err, NewScanner options = Except.error err →
        scanPortWithTimeout NewScanner ScannerRun timeout udp addr port =
          (some { available := false, latency := 0 },
            [ScanEvent.NewScanner options, ScanEvent.UnableToCreate err])) ∧
      (∀ scanner err, NewScanner options = Except.ok scanner →
        (ScannerRun scanner).err = some err →
        scanPortWithTimeout NewScanner ScannerRun timeout udp addr port =
          (some { available := false, latency := 0 },
            [ScanEvent.NewScanner options, ScanEvent.ScannerRun, ScanEvent.UnableToRun err] ++
              warningLines (ScannerRun scanner).warnings)) ∧
      (∀ scanner, NewScanner options = Except.ok scanner →
        (ScannerRun scanner).err = none → (ScannerRun scanner).result = none →
        scanPortWithTimeout NewScanner ScannerRun timeout udp addr port =
          (none,
            [ScanEvent.NewScanner options, ScanEvent.ScannerRun] ++
              warningLines (ScannerRun scanner).warnings)) ∧
      (∀ scanner res, NewScanner options = Except.ok scanner →
        (ScannerRun scanner).err = none → (ScannerRun scanner).result = some res →
        res.Hosts = [] →
        scanPortWithTimeout NewScanner ScannerRun timeout udp addr port =
          (some { available := false, latency := 0 },
            [ScanEvent.NewScanner options, ScanEvent.ScannerRun] ++
              warningLines (ScannerRun scanner).warnings)) ∧
      (∀ scanner res, NewScanner options = Except.ok scanner →
        (ScannerRun scanner).err = none → (ScannerRun scanner).result = some res →
        res.Hosts ≠ [] →
        scanPortWithTimeout NewScanner ScannerRun timeout udp addr port =
          (some { available := true, latency := res.Stats.Finished.Elapsed },
            [ScanEvent.NewScanner options, ScanEvent.ScannerRun] ++
              warningLines (ScannerRun scanner).warnings)) := by
  have hopts : scanOptions (Context.WithTimeout Context.Background timeout) udp addr port =
      (if udp then [] else [NmapOption.WithUDPScan]) ++
        [ NmapOption.WithTargets addr, NmapOption.WithPorts port,
          NmapOption.WithContext (Context.WithTimeout Context.Background timeout) ] := by
    cases udp <;> rfl
  have hsub : List.Sublist
      [ NmapOption.WithTargets addr, NmapOption.WithPorts port,
        NmapOption.WithContext (Context.WithTimeout Context.Background timeout) ]
      (scanOptions (Context.WithTimeout Context.Background timeout) udp addr port) := by
    rw [hopts]
    exact List.sublist_append_right _ _
  have hw : ∀ (w : Option (List String)) (e : ScanEvent F), e ∈ warningLines w →
      ∀ o, e ≠ ScanEvent.NewScanner o := by
    intro w e he o
    cases w with
    | none => simp [warningLines] at he
    | some ws =>
      simp only [warningLines, List.mem_singleton] at he
      rw [he]
      simp
  refine ⟨scanOptions (Context.WithTimeout Context.Background timeout) udp addr port,
    (scanPortWithTimeout NewScanner ScannerRun timeout udp addr port).2.tail, ?_, ?_, hopts, hsub,
    ?_, ?_, ?_, ?_, ?_⟩
  rotate_left 2
  · intro err hnew
    simp [scanPortWithTimeout, scanPort, hnew]
  · intro scanner err hnew herr
    simp [scanPortWithTimeout, scanPort, hnew, herr]
  · intro scanner hnew herr hres
    simp [scanPortWithTimeout, scanPort, hnew, herr, hres]
  · intro scanner res hnew herr hres hh
    simp [scanPortWithTimeout, scanPort, hnew, herr, hres, hh]
  · intro scanner res hnew herr hres hh
    have hlen : (res.Hosts.length == 0) = false := by
      cases hhosts : res.Hosts with
      | nil => exact absurd hhosts hh
      | cons a t => simp
    simp only [scanPortWithTimeout, scanPort, hnew, herr, hres, hlen]
    simp
  · unfold scanPortWithTimeout
    cases hnew : NewScanner (scanOptions (Context.WithTimeout Context.Background timeout)
        udp addr port) with
    | error e => simp [scanPort, hnew]
    | ok scanner =>
      cases herr : (ScannerRun scanner).err with
      | some e => simp [scanPort, hnew, herr]
      | none =>
        cases hres : (ScannerRun scanner).result with
        | none => simp [scanPort, hnew, herr, hres]
        | some res =>
          simp only [scanPort, hnew, herr, hres]
          split_ifs <;> simp
  · unfold scanPortWithTimeout
    cases hnew : NewScanner (scanOptions (Context.WithTimeout Context.Background timeout)
        udp addr port) with
    | error e => simp [scanPort, hnew]
    | ok scanner =>
      cases herr : (ScannerRun scanner).err with
      | some e =>
        simp only [scanPort, hnew, herr]
        intro e he o
        simp only [List.cons_append, List.nil_append, List.tail_cons, List.mem_cons] at he
        rcases he with rfl | rfl | he
        · simp
        · simp
        · exact hw _ e he o
      | none =>
        have hcommon : ∀ e ∈ (ScanEvent.ScannerRun :: warningLines (ScannerRun scanner).warnings :
            List (ScanEvent F)), ∀ o, e ≠ ScanEvent.NewScanner o := by
          intro e he o
          rcases List.mem_cons.mp he with rfl | he
          · simp
          · exact hw _ e he o
        cases hres : (ScannerRun scanner).result with
        | none => simpa [scanPort, hnew, herr, hres] using hcommon
        | some res =>
          simp only [scanPort, hnew, herr, hres]
          split_ifs <;> simpa using hcommon

end CheckNet
